import Mathlib

/-!
Shallow embedding of `src/syteline_reports/app.py`: a small web front-end that
queries a SyteLine REST endpoint (`query_ido`), falls back to a fixed sample
dataset (`DUMMY_SALES`), and aggregates sales amounts by day/month/year
(`sales_report`), plus an ad-hoc query route (`generic_query`).

Modelling choices:
- Python dicts are association lists `List (String × α)` with unique keys;
  `assocSet` preserves the position of an existing key and appends a new one,
  matching CPython dict insertion-order semantics.  In-place mutation of a
  row is modelled by returning the updated row.
- Python numbers (int/float) are modelled as exact rationals `ℚ`.  All the
  amounts handled by the claims are small decimals, where float and rational
  arithmetic agree.  `float(...)` applied to a string is modelled by
  `parseFloatStr` (sign, digits, optional fraction, optional exponent;
  `inf`/`nan`/digit underscores are not representable in `ℚ` and are mapped
  to a coercion failure).
- The HTTP layer is an oracle `net : HttpRequest → NetResult`; `query_ido`
  additionally reports whether it invoked the oracle, so that "performs no
  network I/O" is expressible.
- Python exceptions are modelled with `Except PyError`; code paths that the
  source wraps in `try/except` are resolved inside the definitions, and only
  exceptions that would escape the route handler surface as `.error`.
  `query_ido` and `generic_query` catch every exception internally, which is
  why their return types are plain values rather than `Except`.
- `datetime.strptime(s, "%Y-%m-%d")` is modelled by `strptimeYmd`: exactly
  four year digits, one or two month digits in 1..12, one or two day digits
  valid for the (leap-aware) month, and nothing else in the string - the
  behaviour of CPython's `_strptime` regex followed by `date` validation.
-/

namespace SyteLine

/-- Calendar date, as produced by `datetime.strptime(s, "%Y-%m-%d")`. -/
structure Date where
  y : Nat
  m : Nat
  d : Nat
deriving DecidableEq, Repr

/-- Python `date`/`datetime` ordering: lexicographic on (year, month, day). -/
def Date.le (a b : Date) : Prop :=
  a.y < b.y ∨ (a.y = b.y ∧ (a.m < b.m ∨ (a.m = b.m ∧ a.d ≤ b.d)))

instance (a b : Date) : Decidable (Date.le a b) := by
  unfold Date.le
  exact inferInstance

/-- Two-digit zero padding, as in `strftime` `%m` / `%d`. -/
def pad2 (n : Nat) : String :=
  if n < 10 then "0" ++ toString n else toString n

/-- Four-digit zero padding, as in `strftime` `%Y`. -/
def pad4 (n : Nat) : String :=
  if n < 10 then "000" ++ toString n
  else if n < 100 then "00" ++ toString n
  else if n < 1000 then "0" ++ toString n
  else toString n

/-- Formatting `dt.strftime("%Y-%m-%d")`. -/
def fmtDay (dt : Date) : String :=
  pad4 dt.y ++ "-" ++ pad2 dt.m ++ "-" ++ pad2 dt.d

/-- Formatting `dt.strftime("%Y-%m")`. -/
def fmtMonth (dt : Date) : String :=
  pad4 dt.y ++ "-" ++ pad2 dt.m

/-- Formatting `dt.strftime("%Y")`. -/
def fmtYear (dt : Date) : String :=
  pad4 dt.y

/-- Value of a string of decimal digits. -/
def natOfDigits (cs : List Char) : Nat :=
  cs.foldl (fun a c => a * 10 + (c.toNat - 48)) 0

def allDigits (cs : List Char) : Bool :=
  cs.all Char.isDigit

/-- Gregorian leap-year rule used by `datetime.date`. -/
def isLeap (y : Nat) : Bool :=
  (y % 4 == 0 && y % 100 != 0) || y % 400 == 0

def daysInMonth (y m : Nat) : Nat :=
  if m = 2 then (if isLeap y then 29 else 28)
  else if m = 4 ∨ m = 6 ∨ m = 9 ∨ m = 11 then 30
  else 31

/-- Parsing `datetime.strptime(s, "%Y-%m-%d")`, `none` on `ValueError`. -/
def strptimeYmd (s : String) : Option Date :=
  match s.splitOn "-" with
  | [ys, ms, ds] =>
    if ys.data.length = 4 ∧ allDigits ys.data ∧
       (ms.data.length = 1 ∨ ms.data.length = 2) ∧ allDigits ms.data ∧
       (ds.data.length = 1 ∨ ds.data.length = 2) ∧ allDigits ds.data then
      let y := natOfDigits ys.data
      let m := natOfDigits ms.data
      let d := natOfDigits ds.data
      if 1 ≤ y ∧ 1 ≤ m ∧ m ≤ 12 ∧ 1 ≤ d ∧ d ≤ daysInMonth y m then
        some ⟨y, m, d⟩
      else none
    else none
  | _ => none

/-- A Python value as handled by the app: JSON scalars and containers, plus
`datetime` objects (checked for by the normalisation step) and `None`. -/
inductive PyVal where
  | str (s : String)
  | num (q : ℚ)
  | bool (b : Bool)
  | pyNone
  | dt (d : Date)
  | dict (fields : List (String × PyVal))
  | list (elems : List PyVal)

/-- Exception classes that the embedded code can raise. -/
inductive PyError where
  | typeError
  | valueError
  | attributeError
  | keyError
deriving DecidableEq, Repr

/-- Dict lookup (first occurrence; Python dict keys are unique). -/
def assocFind {α : Type} (l : List (String × α)) (k : String) : Option α :=
  match l with
  | [] => none
  | (k2, v) :: rest => if k2 = k then some v else assocFind rest k

/-- Membership `k in row` for a dict. -/
def assocHas {α : Type} (l : List (String × α)) (k : String) : Bool :=
  (assocFind l k).isSome

/-- Assignment `row[k] = v`: replace in place if present, else append (CPython dict
insertion-order semantics). -/
def assocSet {α : Type} (l : List (String × α)) (k : String) (v : α) :
    List (String × α) :=
  if assocHas l k then l.map (fun p => if p.1 = k then (k, v) else p)
  else l ++ [(k, v)]

/-- Removal in the style of `row.pop(k)` of the (unique) key `k`. -/
def assocRemove {α : Type} (l : List (String × α)) (k : String) :
    List (String × α) :=
  l.filter (fun p => !(p.1 = k))

/-- Lookup `row.get(k, d)`. -/
def assocGetD {α : Type} (l : List (String × α)) (k : String) (d : α) : α :=
  (assocFind l k).getD d

/-- Accumulation `summary[key] = summary.get(key, 0.0) + amt`. -/
def assocAdd (summary : List (String × ℚ)) (key : String) (amt : ℚ) :
    List (String × ℚ) :=
  assocSet summary key ((assocFind summary key).getD 0 + amt)

/-- Exponent part of a Python float literal (after the `e`/`E`). -/
def parseExp (sgn mant : ℚ) (r : List Char) : Option ℚ :=
  let p : Bool × List Char :=
    match r with
    | '+' :: rr => (true, rr)
    | '-' :: rr => (false, rr)
    | _ => (true, r)
  let q := p.2.span Char.isDigit
  if q.1.length = 0 ∨ q.2.length ≠ 0 then none
  else some (sgn * mant *
    (if p.1 then (10 : ℚ) ^ natOfDigits q.1 else ((10 : ℚ) ^ natOfDigits q.1)⁻¹))

/-- Coercion `float(s)` on a string: optional sign, digits with optional fraction,
optional exponent; whitespace is stripped.  `none` models `ValueError`. -/
def parseFloatStr (s : String) : Option ℚ :=
  let cs := s.trim.data
  let sp : ℚ × List Char :=
    match cs with
    | '+' :: rest => (1, rest)
    | '-' :: rest => (-1, rest)
    | _ => (1, cs)
  let ipr := sp.2.span Char.isDigit
  let fpr : List Char × List Char :=
    match ipr.2 with
    | '.' :: r => r.span Char.isDigit
    | _ => ([], ipr.2)
  if ipr.1.length = 0 ∧ fpr.1.length = 0 then none
  else
    let mant : ℚ :=
      (natOfDigits ipr.1 : ℚ) + (natOfDigits fpr.1 : ℚ) / ((10 : ℚ) ^ fpr.1.length)
    match fpr.2 with
    | [] => some (sp.1 * mant)
    | 'e' :: r => parseExp sp.1 mant r
    | 'E' :: r => parseExp sp.1 mant r
    | _ => none

/-- Coercion `float(v)`: numbers and bools coerce, strings are parsed, everything
else raises `TypeError`. -/
def pyFloat : PyVal → Except PyError ℚ
  | .num q => .ok q
  | .bool b => .ok (if b then 1 else 0)
  | .str s =>
      match parseFloatStr s with
      | some q => .ok q
      | none => .error .valueError
  | _ => .error .typeError

/-- Python truthiness of a value. -/
def pyTruthy : PyVal → Bool
  | .str s => !(s == "")
  | .num q => !(q == 0)
  | .bool b => b
  | .pyNone => false
  | .dt _ => true
  | .dict fields => !fields.isEmpty
  | .list elems => !elems.isEmpty

/-- Applying `f x` for each element, stopping at the first exception
(a Python `for` loop / comprehension body). -/
def mapE {α β ε : Type} (f : α → Except ε β) : List α → Except ε (List β)
  | [] => .ok []
  | x :: xs =>
    match f x with
    | .ok y =>
      match mapE f xs with
      | .ok ys => .ok (y :: ys)
      | .error e => .error e
    | .error e => .error e

/-- Comprehension with a fallible filter predicate. -/
def filterE {α ε : Type} (p : α → Except ε Bool) : List α → Except ε (List α)
  | [] => .ok []
  | x :: xs =>
    match p x with
    | .ok b =>
      match filterE p xs with
      | .ok rest => .ok (if b then x :: rest else rest)
      | .error e => .error e
    | .error e => .error e

/-- Fallible left fold (accumulation loop over rows). -/
def foldE {α β ε : Type} (f : β → α → Except ε β) : β → List α → Except ε β
  | b, [] => .ok b
  | b, x :: xs =>
    match f b x with
    | .ok b2 => foldE f b2 xs
    | .error e => .error e

/-- The three environment configuration values, read at process start.
`none` models an unset variable. -/
structure Config where
  base_url : Option String
  mongoose_config : Option String
  api_token : Option String

/-- Python truthiness of `os.getenv(...)`: unset or empty is falsy. -/
def optTruthy : Option String → Bool
  | some s => !(s == "")
  | none => false

/-- The GET request `query_ido` would issue. -/
structure HttpRequest where
  url : String
  params : List (String × String)
  headers : List (String × String)

/-- Outcome of `requests.get` + `raise_for_status` + `resp.json()`:
either some failure (transport error, non-2xx status, JSON decode error)
or a parsed JSON body. -/
inductive NetResult where
  | failure
  | success (body : PyVal)

/-- Stripping as in `BASE_URL.rstrip` of slashes. -/
def rstripSlash (s : String) : String :=
  s.dropRightWhile (fun c => c == '/')

/-- URL, query parameters and headers exactly as `query_ido` builds them. -/
def buildRequest (cfg : Config) (ido : String) (properties : Option (List String))
    (filter_expr : Option String) (order_by : Option String) (record_cap : Nat) :
    HttpRequest :=
  let url := rstripSlash (cfg.base_url.getD "") ++ "/ido/" ++ ido ++ "/load"
  let params :=
    (match properties with
     | some (p :: ps) => [("properties", String.intercalate "," (p :: ps))]
     | _ => []) ++
    (match filter_expr with
     | some f => if f = "" then [] else [("filter", f)]
     | none => []) ++
    (match order_by with
     | some o => if o = "" then [] else [("orderBy", o)]
     | none => []) ++
    [("recordCap", toString record_cap)]
  let headers :=
    [("Authorization", "Mongoose " ++ cfg.api_token.getD ""),
     ("X-Infor-MongooseConfig", cfg.mongoose_config.getD "")]
  ⟨url, params, headers⟩

/-- Extraction `items = data.get("items") or data` followed by
`return items if isinstance(items, list) else []`.  On a non-dict body, `data.get` raises `AttributeError`, which the
enclosing `except` turns into `[]`. -/
def extractItems (body : PyVal) : List PyVal :=
  match body with
  | .dict fields =>
    let items : PyVal :=
      match assocFind fields "items" with
      | some v => if pyTruthy v then v else .dict fields
      | none => .dict fields
    (match items with
     | .list elems => elems
     | _ => [])
  | _ => []

/-- Model of `query_ido`: returns the parsed record list together with a flag telling
whether the network oracle was invoked.  Every exception inside the request
is caught and yields `[]`. -/
def query_ido (cfg : Config) (net : HttpRequest → NetResult) (ido : String)
    (properties : Option (List String)) (filter_expr : Option String)
    (order_by : Option String) (record_cap : Nat) : List PyVal × Bool :=
  if optTruthy cfg.base_url && optTruthy cfg.mongoose_config &&
     optTruthy cfg.api_token then
    match net (buildRequest cfg ido properties filter_expr order_by record_cap) with
    | .failure => ([], true)
    | .success body => (extractItems body, true)
  else ([], false)

/-- The hardcoded fallback dataset `DUMMY_SALES`. -/
def DUMMY_SALES : List PyVal :=
  [.dict [("TransDate", .str "2026-01-01"), ("Type", .str "Product"),
          ("Amount", .num 1200), ("CustNum", .str "C0001"), ("Item", .str "A100")],
   .dict [("TransDate", .str "2026-01-01"), ("Type", .str "Service"),
          ("Amount", .num 250), ("CustNum", .str "C0002"), ("Item", .str "SV01")],
   .dict [("TransDate", .str "2026-01-02"), ("Type", .str "Freight"),
          ("Amount", .num 75), ("CustNum", .str "C0003"), ("Item", .str "FR01")],
   .dict [("TransDate", .str "2026-01-02"), ("Type", .str "Misc"),
          ("Amount", .num 50), ("CustNum", .str "C0001"), ("Item", .str "MISC")],
   .dict [("TransDate", .str "2026-01-05"), ("Type", .str "Product"),
          ("Amount", .num 800), ("CustNum", .str "C0002"), ("Item", .str "A200")],
   .dict [("TransDate", .str "2026-02-01"), ("Type", .str "Service"),
          ("Amount", .num 300), ("CustNum", .str "C0003"), ("Item", .str "SV02")]]

/-- Evaluation of `datetime.strptime(row["TransDate"], "%Y-%m-%d")` with every possible
exception surfaced: indexing a non-dict or a missing key, a non-string
value, or a parse failure. -/
def transDateE (row : PyVal) : Except PyError Date :=
  match row with
  | .dict fields =>
    match assocFind fields "TransDate" with
    | some (.str s) =>
      match strptimeYmd s with
      | some d => .ok d
      | none => .error .valueError
    | some _ => .error .typeError
    | none => .error .keyError
  | _ => .error .typeError

/-- The `isinstance(..., datetime)` ISO-formatting step applied to a value. -/
def isoValue : PyVal → PyVal
  | .dt d => .str (fmtDay d)
  | v => v

/-- Field-level effect of the normalisation loop body on a dict row:
`row["TransDate"] = row.pop("InvoiceDate")` when present, then ISO-format a
`datetime` held under `TransDate`. -/
def normFields (fields : List (String × PyVal)) : List (String × PyVal) :=
  let f1 :=
    if assocHas fields "InvoiceDate" then
      assocSet (assocRemove fields "InvoiceDate") "TransDate"
        ((assocFind fields "InvoiceDate").getD .pyNone)
    else fields
  match assocFind f1 "TransDate" with
  | some (.dt d) => assocSet f1 "TransDate" (.str (fmtDay d))
  | _ => f1

/-- The normalisation loop body on one live row.  On a dict the updates are
total; any non-dict row raises: membership on a number/`None`/`datetime` is a
`TypeError`, `list.pop("InvoiceDate")` is a `TypeError`, and `.pop`/`.get` on
a string or `.get` on a list is an `AttributeError`.  These exceptions are
not caught anywhere in `sales_report`. -/
def normalizeRow (row : PyVal) : Except PyError PyVal :=
  match row with
  | .dict fields => .ok (.dict (normFields fields))
  | .str _ => .error .attributeError
  | .list elems =>
    if elems.any (fun v => match v with | PyVal.str s => s == "InvoiceDate" | _ => false)
    then .error .typeError
    else .error .attributeError
  | _ => .error .typeError

/-- The `group_by` key choice: `"day"`, `"month"`, anything else is year. -/
def dateKey (group_by : String) (dt : Date) : String :=
  if group_by = "day" then fmtDay dt
  else if group_by = "month" then fmtMonth dt
  else fmtYear dt

/-- One iteration of the accumulation loop: the `try/except` around
`strptime(row["TransDate"], ...)` turns any indexing/type/parse failure into
`continue`; the amount coercion `float(row.get("Amount", 0))` is outside the
`try`, so its failure propagates. -/
def groupStep (group_by : String) (summary : List (String × ℚ)) (row : PyVal) :
    Except PyError (List (String × ℚ)) :=
  match row with
  | .dict fields =>
    match assocFind fields "TransDate" with
    | some (.str s) =>
      match strptimeYmd s with
      | some d =>
        (match pyFloat (assocGetD fields "Amount" (.num 0)) with
         | .ok amt => .ok (assocAdd summary (dateKey group_by d) amt)
         | .error e => .error e)
      | none => .ok summary
    | _ => .ok summary
  | _ => .ok summary

/-- The rendered `results.html` context for the report route. -/
structure ReportResponse where
  sales_summary : List (String × ℚ)
  error : Option String
deriving DecidableEq, Repr

def INVALID_DATE_MSG : String := "Invalid date format. Please use YYYY-MM-DD."

def REPORT_PROPERTIES : List String := ["InvoiceDate", "Type", "Amount", "CustNum"]

def squote : String := String.singleton (Char.ofNat 39)

/-- The f-string filter expression built from the two date strings,
with single quotes around each. -/
def reportFilterExpr (start_date end_date : String) : String :=
  "InvoiceDate>=" ++ squote ++ start_date ++ squote ++
  " AND InvoiceDate<=" ++ squote ++ end_date ++ squote

/-- Test of the fallback comprehension,
`start_dt <= strptime(row["TransDate"]).date() <= end_dt`; a row whose
`TransDate` fails to parse would raise here (no `try` around it). -/
def fallbackKeep (start_dt end_dt : Date) (row : PyVal) : Except PyError Bool :=
  match transDateE row with
  | .ok d => .ok (decide (Date.le start_dt d) && decide (Date.le d end_dt))
  | .error e => .error e

/-- Tail of the report pipeline on live (remote) records: per-row
normalisation followed by grouping, with no date filtering of any kind. -/
def liveReportResult (group_by : String) (records : List PyVal) :
    Except PyError ReportResponse :=
  match mapE normalizeRow records with
  | .ok recs =>
    (match foldE (groupStep group_by) [] recs with
     | .ok summary => .ok ⟨summary, none⟩
     | .error e => .error e)
  | .error e => .error e

/-- The `POST /sales_report` handler.  `.error e` means the Python function
would let exception `e` escape (an HTTP 500); `.ok` is a rendered page. -/
def sales_report (cfg : Config) (net : HttpRequest → NetResult)
    (start_date end_date group_by : String) : Except PyError ReportResponse :=
  match strptimeYmd start_date, strptimeYmd end_date with
  | some start_dt, some end_dt =>
    let records := (query_ido cfg net "SLPostedInvoices" (some REPORT_PROPERTIES)
        (some (reportFilterExpr start_date end_date)) none 0).1
    let selected : Except PyError (List PyVal) :=
      if records.isEmpty then filterE (fallbackKeep start_dt end_dt) DUMMY_SALES
      else mapE normalizeRow records
    (match selected with
     | .ok recs =>
       (match foldE (groupStep group_by) [] recs with
        | .ok summary => .ok ⟨summary, none⟩
        | .error e => .error e)
     | .error e => .error e)
  | _, _ => .ok ⟨[], some INVALID_DATE_MSG⟩

/-- The rendered `results.html` context for the ad-hoc query route. -/
structure QueryResponse where
  items : List PyVal
  error : Option String

/-- The `POST /query` handler: splits/strips the properties string, maps
empty strings to `None`, and passes everything to `query_ido`. -/
def generic_query (cfg : Config) (net : HttpRequest → NetResult)
    (ido properties filter_expr order_by : String) : QueryResponse :=
  let prop_list := ((properties.splitOn ",").map String.trim).filter (fun p => !(p == ""))
  let filter_val := if filter_expr = "" then none else some filter_expr
  let order_val := if order_by = "" then none else some order_by
  let results := (query_ido cfg net ido
      (if prop_list.isEmpty then none else some prop_list)
      filter_val order_val 0).1
  ⟨results, none⟩

/-- A fully-populated configuration, for concrete runs. -/
def cfgFull : Config :=
  ⟨some "https://tenant.example.com/idoapi", some "CG:Site", some "tok"⟩

/-- A configuration with every variable unset. -/
def cfgNone : Config := ⟨none, none, none⟩

/-- A network oracle whose every call fails. -/
def netFail : HttpRequest → NetResult := fun _ => .failure

/-- An oracle answering with a body `{"items": [{"CustNum": "C1"}]}`. -/
def netItems : HttpRequest → NetResult := fun _ =>
  .success (.dict [("items", .list [.dict [("CustNum", .str "C1")]])])

/-- An oracle answering with the bare-list body `[{"CustNum": "C1"}]`. -/
def netBareList : HttpRequest → NetResult := fun _ =>
  .success (.list [.dict [("CustNum", .str "C1")]])

/-- An oracle answering with one record whose `Amount` is the non-numeric
string `"N/A"`: `{"items": [{"InvoiceDate": "2026-01-05", "Amount": "N/A"}]}`. -/
def netBadAmount : HttpRequest → NetResult := fun _ =>
  .success (.dict [("items",
    .list [.dict [("InvoiceDate", .str "2026-01-05"), ("Amount", .str "N/A")]])])

theorem Date.le_trans {a b c : Date} (h1 : Date.le a b) (h2 : Date.le b c) :
    Date.le a c := by
  unfold Date.le at *
  omega

theorem date_out_of_empty_range {S E : Date} (h : ¬ Date.le S E) (d : Date) :
    (decide (Date.le S d) && decide (Date.le d E)) = false := by
  by_cases h1 : Date.le S d <;> by_cases h2 : Date.le d E <;> simp [h1, h2]
  exact absurd (Date.le_trans h1 h2) h

theorem assocFind_mapSet_self {α : Type} (l : List (String × α)) (k : String) (v : α) :
    assocFind (l.map (fun p => if p.1 = k then (k, v) else p)) k =
      if assocHas l k then some v else none := by
  induction l with
  | nil => simp [assocFind, assocHas]
  | cons p t ih =>
    rcases p with ⟨k1, v1⟩
    simp only [List.map_cons]
    by_cases hk : k1 = k
    · subst hk
      dsimp only
      rw [if_pos rfl]
      simp [assocFind, assocHas]
    · dsimp only
      rw [if_neg hk]
      simp [assocFind, assocHas, hk, ih]

theorem assocFind_mapSet_other {α : Type} (l : List (String × α)) (k : String) (v : α)
    (k2 : String) (h : k2 ≠ k) :
    assocFind (l.map (fun p => if p.1 = k then (k, v) else p)) k2 = assocFind l k2 := by
  induction l with
  | nil => simp [assocFind]
  | cons p t ih =>
    rcases p with ⟨k1, v1⟩
    simp only [List.map_cons]
    by_cases hk : k1 = k
    · subst hk
      dsimp only
      rw [if_pos rfl]
      simp [assocFind, Ne.symm h, ih]
    · dsimp only
      rw [if_neg hk]
      simp [assocFind, ih]

theorem assocFind_append_none {α : Type} (l m : List (String × α)) (k : String)
    (h : assocFind l k = none) :
    assocFind (l ++ m) k = assocFind m k := by
  induction l with
  | nil => simp
  | cons p t ih =>
    by_cases hk : p.1 = k
    · simp [assocFind, hk] at h
    · simp only [assocFind, hk, if_neg] at h ⊢
      · exact ih h

theorem assocFind_append_some {α : Type} (l m : List (String × α)) (k : String) (v : α)
    (h : assocFind l k = some v) :
    assocFind (l ++ m) k = some v := by
  induction l with
  | nil => simp [assocFind] at h
  | cons p t ih =>
    by_cases hk : p.1 = k
    · simp only [assocFind, hk, if_pos] at h ⊢
      exact h
    · simp only [assocFind, hk, if_neg] at h ⊢
      · exact ih h

theorem assocFind_set_self {α : Type} (l : List (String × α)) (k : String) (v : α) :
    assocFind (assocSet l k v) k = some v := by
  unfold assocSet
  cases hh : assocHas l k with
  | true => simp [assocFind_mapSet_self, hh]
  | false =>
    have hn : assocFind l k = none := by
      unfold assocHas at hh
      exact Option.not_isSome_iff_eq_none.mp (by simp [hh])
    simp [assocFind_append_none l _ k hn, assocFind]

theorem assocFind_set_other {α : Type} (l : List (String × α)) (k : String) (v : α)
    (k2 : String) (h : k2 ≠ k) :
    assocFind (assocSet l k v) k2 = assocFind l k2 := by
  unfold assocSet
  cases hh : assocHas l k with
  | true => simp [hh, assocFind_mapSet_other l k v k2 h]
  | false =>
    simp only [hh, Bool.false_eq_true, if_false]
    cases hf : assocFind l k2 with
    | some w => simp [assocFind_append_some l _ k2 w hf]
    | none =>
      rw [assocFind_append_none l _ k2 hf]
      simp [assocFind, Ne.symm h]

theorem assocFind_remove_self {α : Type} (l : List (String × α)) (k : String) :
    assocFind (assocRemove l k) k = none := by
  induction l with
  | nil => rfl
  | cons p t ih =>
    rcases p with ⟨k1, v1⟩
    by_cases hk : k1 = k
    · subst hk
      simpa [assocRemove, List.filter_cons] using ih
    · simpa [assocRemove, List.filter_cons, assocFind, hk] using ih

theorem assocFind_remove_other {α : Type} (l : List (String × α)) (k : String)
    (k2 : String) (h : k2 ≠ k) :
    assocFind (assocRemove l k) k2 = assocFind l k2 := by
  induction l with
  | nil => rfl
  | cons p t ih =>
    rcases p with ⟨k1, v1⟩
    by_cases hk : k1 = k
    · subst hk
      simpa [assocRemove, List.filter_cons, assocFind, Ne.symm h] using ih
    · by_cases hp2 : k1 = k2
      · subst hp2
        simp [assocRemove, List.filter_cons, assocFind, hk]
      · simpa [assocRemove, List.filter_cons, assocFind, hk, hp2] using ih

theorem filterE_all_false {α ε : Type} (p : α → Except ε Bool) (l : List α)
    (h : ∀ x ∈ l, p x = .ok false) : filterE p l = .ok [] := by
  induction l with
  | nil => rfl
  | cons x xs ih =>
    simp [filterE, h x (by simp), ih (fun z hz => h z (by simp [hz]))]

theorem filterE_ok {α ε : Type} (p : α → Except ε Bool) (l : List α)
    (h : ∀ x ∈ l, ∃ b, p x = .ok b) :
    ∃ r, filterE p l = .ok r ∧ ∀ x ∈ r, x ∈ l := by
  induction l with
  | nil => exact ⟨[], rfl, by simp⟩
  | cons x xs ih =>
    obtain ⟨b, hb⟩ := h x (by simp)
    obtain ⟨r, hr, hsub⟩ := ih (fun z hz => h z (by simp [hz]))
    cases b with
    | true =>
      refine ⟨x :: r, by simp [filterE, hb, hr], ?_⟩
      intro z hz
      rcases List.mem_cons.mp hz with rfl | hz2
      · simp
      · simp [hsub z hz2]
    | false =>
      refine ⟨r, by simp [filterE, hb, hr], ?_⟩
      intro z hz
      simp [hsub z hz]

theorem mapE_ok {α β ε : Type} (f : α → Except ε β) (l : List α)
    (h : ∀ x ∈ l, ∃ y, f x = .ok y) :
    ∃ l2, mapE f l = .ok l2 ∧ ∀ y ∈ l2, ∃ x, x ∈ l ∧ f x = .ok y := by
  induction l with
  | nil => exact ⟨[], rfl, by simp⟩
  | cons x xs ih =>
    obtain ⟨y, hy⟩ := h x (by simp)
    obtain ⟨l2, hl2, hmem⟩ := ih (fun z hz => h z (by simp [hz]))
    refine ⟨y :: l2, by simp [mapE, hy, hl2], ?_⟩
    intro z hz
    rcases List.mem_cons.mp hz with rfl | hz2
    · exact ⟨x, by simp, hy⟩
    · obtain ⟨w, hw, hfw⟩ := hmem z hz2
      exact ⟨w, by simp [hw], hfw⟩

theorem foldE_ok {α β ε : Type} (f : β → α → Except ε β) (l : List α)
    (h : ∀ x ∈ l, ∀ b, ∃ b2, f b x = .ok b2) :
    ∀ init, ∃ r, foldE f init l = .ok r := by
  induction l with
  | nil => exact fun init => ⟨init, rfl⟩
  | cons x xs ih =>
    intro init
    obtain ⟨b2, hb2⟩ := h x (by simp) init
    obtain ⟨r, hr⟩ := ih (fun z hz b => h z (by simp [hz]) b) b2
    exact ⟨r, by simp [foldE, hb2, hr]⟩

theorem foldE_skip {α β ε : Type} (f : β → α → Except ε β) (bad : α)
    (hbad : ∀ b, f b bad = .ok b) (pre post : List α) :
    ∀ init, foldE f init (pre ++ bad :: post) = foldE f init (pre ++ post) := by
  induction pre with
  | nil => intro init; simp [foldE, hbad init]
  | cons x xs ih =>
    intro init
    simp only [List.cons_append, foldE]
    cases f init x with
    | ok b2 => exact ih b2
    | error e => rfl

theorem groupStep_ok (group_by : String) (row : PyVal)
    (h : ∀ fields, row = .dict fields →
      ∃ q, pyFloat (assocGetD fields "Amount" (.num 0)) = .ok q) :
    ∀ summary, ∃ s2, groupStep group_by summary row = .ok s2 := by
  intro summary
  cases row with
  | dict fields =>
    cases hf : assocFind fields "TransDate" with
    | none => exact ⟨summary, by simp [groupStep, hf]⟩
    | some v =>
      cases v with
      | str s =>
        cases hp : strptimeYmd s with
        | none => exact ⟨summary, by simp [groupStep, hf, hp]⟩
        | some d =>
          obtain ⟨q, hq⟩ := h fields rfl
          refine ⟨assocAdd summary (dateKey group_by d) q, ?_⟩
          simp [groupStep, hf, hp, hq]
      | num q => exact ⟨summary, by simp [groupStep, hf]⟩
      | bool b => exact ⟨summary, by simp [groupStep, hf]⟩
      | pyNone => exact ⟨summary, by simp [groupStep, hf]⟩
      | dt d => exact ⟨summary, by simp [groupStep, hf]⟩
      | dict f2 => exact ⟨summary, by simp [groupStep, hf]⟩
      | list l2 => exact ⟨summary, by simp [groupStep, hf]⟩
  | str s => exact ⟨summary, rfl⟩
  | num q => exact ⟨summary, rfl⟩
  | bool b => exact ⟨summary, rfl⟩
  | pyNone => exact ⟨summary, rfl⟩
  | dt d => exact ⟨summary, rfl⟩
  | list l2 => exact ⟨summary, rfl⟩

theorem normFields_amount (fields : List (String × PyVal)) :
    assocFind (normFields fields) "Amount" = assocFind fields "Amount" := by
  unfold normFields
  cases hh : assocHas fields "InvoiceDate" with
  | true =>
    simp only [hh, if_true]
    have hbase :
        assocFind (assocSet (assocRemove fields "InvoiceDate") "TransDate"
          ((assocFind fields "InvoiceDate").getD .pyNone)) "Amount" =
        assocFind fields "Amount" := by
      rw [assocFind_set_other _ _ _ _ (by decide),
          assocFind_remove_other _ _ _ (by decide)]
    split
    · rw [assocFind_set_other _ _ _ _ (by decide), hbase]
    · exact hbase
  | false =>
    simp only [hh, Bool.false_eq_true, if_false]
    split
    · rw [assocFind_set_other _ _ _ _ (by decide)]
    · rfl

/-- C1: the spec claims a remote body `{"items": L}` and a bare-list body
`L` yield the same parsed record list.  On the code they do not, for any
non-empty `L`: the envelope shape yields `L`, while the bare list makes
`data.get("items")` raise `AttributeError` inside the blanket `except`, so
`query_ido` yields `[]` - contradicting the comment in `query_ido` that the
top-level list is used as a fallback. -/
theorem claim_C1_items_envelope_vs_bare_list :
    (query_ido cfgFull netItems "SLCustomers" none none none 0).1 =
      [PyVal.dict [("CustNum", PyVal.str "C1")]] ∧
    (query_ido cfgFull netBareList "SLCustomers" none none none 0).1 = [] ∧
    ¬ ((query_ido cfgFull netBareList "SLCustomers" none none none 0).1 =
       (query_ido cfgFull netItems "SLCustomers" none none none 0).1) := by
  refine ⟨rfl, rfl, fun hc => ?_⟩
  rw [show (query_ido cfgFull netBareList "SLCustomers" none none none 0).1 = []
        from rfl,
      show (query_ido cfgFull netItems "SLCustomers" none none none 0).1 =
        [PyVal.dict [("CustNum", PyVal.str "C1")]] from rfl] at hc
  simp at hc

/-- C3: if any of the three configuration values is absent, `query_ido`
returns an empty list and performs no network I/O (the oracle-invoked flag
of the model is `false`). -/
theorem claim_C3_missing_config_no_io (cfg : Config) (net : HttpRequest → NetResult)
    (ido : String) (properties : Option (List String)) (filter_expr : Option String)
    (order_by : Option String) (record_cap : Nat)
    (h : cfg.base_url = none ∨ cfg.mongoose_config = none ∨ cfg.api_token = none) :
    query_ido cfg net ido properties filter_expr order_by record_cap = ([], false) := by
  rcases h with h | h | h <;> simp [query_ido, optTruthy, h]

theorem claim_C3_missing_config_no_io_witness :
    query_ido cfgNone netFail "SLCustomers" none none none 0 = ([], false) :=
  claim_C3_missing_config_no_io cfgNone netFail "SLCustomers" none none none 0
    (Or.inl rfl)

/-- C4: a start or end date string that does not parse as YYYY-MM-DD makes
`sales_report` return the designated error message with an empty summary;
aggregation is never reached and no exception escapes. -/
theorem claim_C4_invalid_date_error (cfg : Config) (net : HttpRequest → NetResult)
    (start_date end_date group_by : String)
    (h : strptimeYmd start_date = none ∨ strptimeYmd end_date = none) :
    sales_report cfg net start_date end_date group_by =
      .ok ⟨[], some INVALID_DATE_MSG⟩ := by
  unfold sales_report
  rcases h with h | h
  · cases he : strptimeYmd end_date <;> simp [h, he]
  · cases hs : strptimeYmd start_date <;> simp [hs, h]

theorem claim_C4_invalid_date_error_witness :
    sales_report cfgNone netFail "13/40/2026" "2026-01-01" "day" =
      .ok ⟨[], some INVALID_DATE_MSG⟩ :=
  claim_C4_invalid_date_error cfgNone netFail "13/40/2026" "2026-01-01" "day"
    (Or.inl (by with_unfolding_all rfl))

/-- C6: for a record whose canonical date field parses, the accumulation
bucket key is the day string under group_by "day", the month string under
"month", and the year-level truncation under every other group_by value. -/
theorem claim_C6_group_key_policy (fields : List (String × PyVal)) (s : String)
    (d : Date) (amt : ℚ) (summary : List (String × ℚ))
    (ht : assocFind fields "TransDate" = some (PyVal.str s))
    (hp : strptimeYmd s = some d)
    (ha : pyFloat (assocGetD fields "Amount" (PyVal.num 0)) = .ok amt) :
    (∀ group_by, group_by ≠ "day" → group_by ≠ "month" →
        groupStep group_by summary (.dict fields) =
          .ok (assocAdd summary (fmtYear d) amt)) ∧
    groupStep "day" summary (.dict fields) = .ok (assocAdd summary (fmtDay d) amt) ∧
    groupStep "month" summary (.dict fields) =
      .ok (assocAdd summary (fmtMonth d) amt) := by
  refine ⟨fun group_by h1 h2 => ?_, ?_, ?_⟩
  · simp [groupStep, ht, hp, ha, dateKey, h1, h2]
  · simp [groupStep, ht, hp, ha, dateKey]
  · simp [groupStep, ht, hp, ha, dateKey]

theorem claim_C6_group_key_policy_witness :
    groupStep "total" []
      (.dict [("TransDate", PyVal.str "2026-03-04"), ("Amount", PyVal.num 10)]) =
      .ok (assocAdd [] (fmtYear ⟨2026, 3, 4⟩) 10) ∧
    groupStep "day" []
      (.dict [("TransDate", PyVal.str "2026-03-04"), ("Amount", PyVal.num 10)]) =
      .ok (assocAdd [] (fmtDay ⟨2026, 3, 4⟩) 10) := by
  have h := claim_C6_group_key_policy
    [("TransDate", PyVal.str "2026-03-04"), ("Amount", PyVal.num 10)]
    "2026-03-04" ⟨2026, 3, 4⟩ 10 [] rfl (by with_unfolding_all rfl) rfl
  exact ⟨h.1 "total" (by decide) (by decide), h.2.1⟩

/-- C7: the end-to-end run against the fallback dataset with
start 2026-01-01, end 2026-01-02, group_by day yields exactly two buckets:
2026-01-01 with total 1450.0 and 2026-01-02 with total 125.0. -/
theorem claim_C7_end_to_end_fallback_day :
    sales_report cfgNone netFail "2026-01-01" "2026-01-02" "day" =
      .ok ⟨[("2026-01-01", 1450), ("2026-01-02", 125)], none⟩ := by
  with_unfolding_all rfl

/-- C9: a record whose canonical date string fails to parse is skipped
silently by the accumulation loop: removing it from anywhere in the record
list leaves the computed summary unchanged (so it contributes to no bucket,
raises nothing, and all other records are still aggregated). -/
theorem claim_C9_unparseable_row_skipped (group_by : String)
    (fields : List (String × PyVal)) (s : String) (pre post : List PyVal)
    (init : List (String × ℚ))
    (ht : assocFind fields "TransDate" = some (PyVal.str s))
    (hp : strptimeYmd s = none) :
    foldE (groupStep group_by) init (pre ++ PyVal.dict fields :: post) =
      foldE (groupStep group_by) init (pre ++ post) := by
  apply foldE_skip
  intro b
  simp [groupStep, ht, hp]

theorem claim_C9_unparseable_row_skipped_witness :
    foldE (groupStep "day") []
      ([PyVal.dict [("TransDate", PyVal.str "2026-01-01"), ("Amount", PyVal.num 5)]] ++
        PyVal.dict [("TransDate", PyVal.str "2026-13-01"), ("Amount", PyVal.num 7)] ::
        [PyVal.dict [("TransDate", PyVal.str "2026-01-02"), ("Amount", PyVal.num 9)]]) =
    foldE (groupStep "day") []
      ([PyVal.dict [("TransDate", PyVal.str "2026-01-01"), ("Amount", PyVal.num 5)]] ++
        [PyVal.dict [("TransDate", PyVal.str "2026-01-02"), ("Amount", PyVal.num 9)]]) :=
  claim_C9_unparseable_row_skipped "day"
    [("TransDate", PyVal.str "2026-13-01"), ("Amount", PyVal.num 7)] "2026-13-01"
    [PyVal.dict [("TransDate", PyVal.str "2026-01-01"), ("Amount", PyVal.num 5)]]
    [PyVal.dict [("TransDate", PyVal.str "2026-01-02"), ("Amount", PyVal.num 9)]]
    [] rfl (by with_unfolding_all rfl)

/-- C10: normalising a live record that holds an InvoiceDate key removes
that key and writes its value under TransDate, overwriting any pre-existing
TransDate entry (ISO-formatting the value when it is a datetime); Python
performs this mutation in place, modelled here by the returned record. -/
theorem claim_C10_invoice_date_rename (fields : List (String × PyVal)) (v : PyVal)
    (h : assocFind fields "InvoiceDate" = some v) :
    normalizeRow (.dict fields) = .ok (.dict (normFields fields)) ∧
    assocFind (normFields fields) "InvoiceDate" = none ∧
    assocFind (normFields fields) "TransDate" = some (isoValue v) := by
  have hhas : assocHas fields "InvoiceDate" = true := by simp [assocHas, h]
  have hfI : assocFind (assocSet (assocRemove fields "InvoiceDate") "TransDate" v)
      "InvoiceDate" = none := by
    rw [assocFind_set_other _ _ _ _ (by decide), assocFind_remove_self]
  have hfT : assocFind (assocSet (assocRemove fields "InvoiceDate") "TransDate" v)
      "TransDate" = some v := assocFind_set_self _ _ _
  refine ⟨rfl, ?_⟩
  unfold normFields
  rw [if_pos hhas, h]
  simp only [Option.getD_some]
  rw [hfT]
  cases v with
  | dt d =>
    constructor
    · show assocFind (assocSet (assocSet (assocRemove fields "InvoiceDate")
          "TransDate" (.dt d)) "TransDate" (.str (fmtDay d))) "InvoiceDate" = none
      rw [assocFind_set_other _ _ _ _ (by decide)]
      exact hfI
    · show assocFind (assocSet (assocSet (assocRemove fields "InvoiceDate")
          "TransDate" (.dt d)) "TransDate" (.str (fmtDay d))) "TransDate" =
        some (isoValue (.dt d))
      rw [assocFind_set_self]
      rfl
  | str s => exact ⟨hfI, hfT⟩
  | num q => exact ⟨hfI, hfT⟩
  | bool b => exact ⟨hfI, hfT⟩
  | pyNone => exact ⟨hfI, hfT⟩
  | dict f2 => exact ⟨hfI, hfT⟩
  | list l2 => exact ⟨hfI, hfT⟩

theorem claim_C10_invoice_date_rename_witness :
    normalizeRow (.dict [("TransDate", PyVal.str "OLD"),
        ("InvoiceDate", PyVal.str "2026-01-05")]) =
      .ok (.dict (normFields [("TransDate", PyVal.str "OLD"),
        ("InvoiceDate", PyVal.str "2026-01-05")])) ∧
    assocFind (normFields [("TransDate", PyVal.str "OLD"),
        ("InvoiceDate", PyVal.str "2026-01-05")]) "InvoiceDate" = none ∧
    assocFind (normFields [("TransDate", PyVal.str "OLD"),
        ("InvoiceDate", PyVal.str "2026-01-05")]) "TransDate" =
      some (isoValue (PyVal.str "2026-01-05")) :=
  claim_C10_invoice_date_rename
    [("TransDate", PyVal.str "OLD"), ("InvoiceDate", PyVal.str "2026-01-05")]
    (PyVal.str "2026-01-05") rfl

theorem keep_false_of_parse (S E : Date) (h : ¬ Date.le S E) (row : PyVal) (d : Date)
    (he : transDateE row = .ok d) : fallbackKeep S E row = .ok false := by
  simp [fallbackKeep, he, date_out_of_empty_range h]

theorem dummy_rows_keep_false (S E : Date) (h : ¬ Date.le S E) :
    ∀ row ∈ DUMMY_SALES, fallbackKeep S E row = .ok false := by
  intro row hrow
  simp only [DUMMY_SALES, List.mem_cons, List.not_mem_nil, or_false] at hrow
  rcases hrow with rfl | rfl | rfl | rfl | rfl | rfl
  · exact keep_false_of_parse S E h _ ⟨2026, 1, 1⟩ (by with_unfolding_all rfl)
  · exact keep_false_of_parse S E h _ ⟨2026, 1, 1⟩ (by with_unfolding_all rfl)
  · exact keep_false_of_parse S E h _ ⟨2026, 1, 2⟩ (by with_unfolding_all rfl)
  · exact keep_false_of_parse S E h _ ⟨2026, 1, 2⟩ (by with_unfolding_all rfl)
  · exact keep_false_of_parse S E h _ ⟨2026, 1, 5⟩ (by with_unfolding_all rfl)
  · exact keep_false_of_parse S E h _ ⟨2026, 2, 1⟩ (by with_unfolding_all rfl)

theorem fallback_filter_empty (S E : Date) (h : ¬ Date.le S E) :
    filterE (fallbackKeep S E) DUMMY_SALES = .ok [] :=
  filterE_all_false _ _ (dummy_rows_keep_false S E h)

/-- C5: with a valid range whose start is after its end and no live records,
the fallback rows are all filtered out by the inclusive range check and the
summary is empty. -/
theorem claim_C5_start_after_end_empty (cfg : Config) (net : HttpRequest → NetResult)
    (start_date end_date group_by : String) (start_dt end_dt : Date)
    (hs : strptimeYmd start_date = some start_dt)
    (he : strptimeYmd end_date = some end_dt)
    (hlt : ¬ Date.le start_dt end_dt)
    (hq : (query_ido cfg net "SLPostedInvoices" (some REPORT_PROPERTIES)
        (some (reportFilterExpr start_date end_date)) none 0).1 = []) :
    sales_report cfg net start_date end_date group_by = .ok ⟨[], none⟩ := by
  unfold sales_report
  rw [hs, he]
  simp [hq, fallback_filter_empty start_dt end_dt hlt, foldE]

theorem claim_C5_start_after_end_empty_witness :
    sales_report cfgNone netFail "2026-02-01" "2026-01-01" "day" = .ok ⟨[], none⟩ :=
  claim_C5_start_after_end_empty cfgNone netFail "2026-02-01" "2026-01-01" "day"
    ⟨2026, 2, 1⟩ ⟨2026, 1, 1⟩ (by with_unfolding_all rfl)
    (by with_unfolding_all rfl) (by decide) rfl

/-- C8: when the remote client returns a non-empty record list, the report
applies no date-range re-filtering: its result is exactly the dateless
pipeline `liveReportResult`, which passes every record to grouping after
`normalizeRow` - the rename of InvoiceDate to TransDate plus
ISO-formatting, and nothing else. -/
theorem claim_C8_live_records_not_refiltered (cfg : Config)
    (net : HttpRequest → NetResult) (start_date end_date group_by : String)
    (start_dt end_dt : Date) (r : PyVal) (rs : List PyVal)
    (hs : strptimeYmd start_date = some start_dt)
    (he : strptimeYmd end_date = some end_dt)
    (hq : (query_ido cfg net "SLPostedInvoices" (some REPORT_PROPERTIES)
        (some (reportFilterExpr start_date end_date)) none 0).1 = r :: rs) :
    sales_report cfg net start_date end_date group_by =
      liveReportResult group_by (r :: rs) := by
  unfold sales_report liveReportResult
  rw [hs, he]
  simp [hq]

theorem claim_C8_live_records_not_refiltered_witness :
    sales_report cfgFull netItems "2026-01-01" "2026-01-02" "day" =
      liveReportResult "day" [PyVal.dict [("CustNum", PyVal.str "C1")]] :=
  claim_C8_live_records_not_refiltered cfgFull netItems "2026-01-01" "2026-01-02"
    "day" ⟨2026, 1, 1⟩ ⟨2026, 1, 2⟩ (PyVal.dict [("CustNum", PyVal.str "C1")]) []
    (by with_unfolding_all rfl) (by with_unfolding_all rfl)
    (by with_unfolding_all rfl)

/-- C2 counterexample: the claim that no input can raise an unhandled
exception is false.  A live record whose Amount is the non-numeric string
"N/A" reaches the accumulation step, whose `float(row.get("Amount", 0))`
sits outside the `try`, and the handler propagates a `ValueError`. -/
theorem claim_C2_counterexample_amount_coercion :
    sales_report cfgFull netBadAmount "2026-01-01" "2026-01-31" "day" =
      .error .valueError := by
  with_unfolding_all rfl

theorem dummy_rows_dict_amount (x : PyVal) (hx : x ∈ DUMMY_SALES) :
    ∀ fields, x = PyVal.dict fields →
      ∃ q, pyFloat (assocGetD fields "Amount" (PyVal.num 0)) = .ok q := by
  simp only [DUMMY_SALES, List.mem_cons, List.not_mem_nil, or_false] at hx
  rcases hx with rfl | rfl | rfl | rfl | rfl | rfl
  all_goals
    intro fields hf
    injection hf with h3
    subst h3
    exact ⟨_, by with_unfolding_all rfl⟩

/-- C2 amended: no unhandled exception escapes provided every live record is
a dict whose Amount value coerces to a float; in particular the fallback
path (all dummy amounts are numeric) and the invalid-date path never raise.
`query_ido` and `generic_query` catch every exception by construction
(their embedded types are exception-free). -/
theorem claim_C2_no_unhandled_exception (cfg : Config) (net : HttpRequest → NetResult)
    (start_date end_date group_by : String)
    (h : ∀ row ∈ (query_ido cfg net "SLPostedInvoices" (some REPORT_PROPERTIES)
        (some (reportFilterExpr start_date end_date)) none 0).1,
        ∃ fields, row = PyVal.dict fields ∧
          ∃ q, pyFloat (assocGetD fields "Amount" (PyVal.num 0)) = .ok q) :
    ∃ resp, sales_report cfg net start_date end_date group_by = .ok resp := by
  unfold sales_report
  cases hs : strptimeYmd start_date with
  | none =>
    cases he : strptimeYmd end_date with
    | none => exact ⟨⟨[], some INVALID_DATE_MSG⟩, rfl⟩
    | some E => exact ⟨⟨[], some INVALID_DATE_MSG⟩, rfl⟩
  | some S =>
    cases he : strptimeYmd end_date with
    | none => exact ⟨⟨[], some INVALID_DATE_MSG⟩, rfl⟩
    | some E =>
      cases hR : (query_ido cfg net "SLPostedInvoices" (some REPORT_PROPERTIES)
          (some (reportFilterExpr start_date end_date)) none 0).1 with
      | nil =>
        have hkeep : ∀ x ∈ DUMMY_SALES, ∃ b, fallbackKeep S E x = .ok b := by
          intro x hx
          simp only [DUMMY_SALES, List.mem_cons, List.not_mem_nil, or_false] at hx
          rcases hx with rfl | rfl | rfl | rfl | rfl | rfl
          all_goals exact ⟨_, by with_unfolding_all rfl⟩
        obtain ⟨flist, hfl, hsub⟩ := filterE_ok _ _ hkeep
        have hfold : ∀ x ∈ flist, ∀ b, ∃ b2, groupStep group_by b x = .ok b2 := by
          intro x hx b
          exact groupStep_ok group_by x (dummy_rows_dict_amount x (hsub x hx)) b
        obtain ⟨summ, hsumm⟩ := foldE_ok _ _ hfold []
        exact ⟨⟨summ, none⟩, by simp [hR, hfl, hsumm]⟩
      | cons r rs =>
        rw [hR] at h
        have hmap : ∀ x ∈ r :: rs, ∃ y, normalizeRow x = .ok y := by
          intro x hx
          obtain ⟨fields, rfl, _⟩ := h x hx
          exact ⟨_, rfl⟩
        obtain ⟨l2, hl2, hmem⟩ := mapE_ok _ _ hmap
        have hfold : ∀ y ∈ l2, ∀ b, ∃ b2, groupStep group_by b y = .ok b2 := by
          intro y hy b
          obtain ⟨x, hx, hfx⟩ := hmem y hy
          obtain ⟨fields, rfl, q, hq⟩ := h x hx
          have h0 : normalizeRow (PyVal.dict fields) =
              .ok (PyVal.dict (normFields fields)) := rfl
          have hy2 : PyVal.dict (normFields fields) = y :=
            Except.ok.inj (h0.symm.trans hfx)
          subst hy2
          refine groupStep_ok group_by _ ?_ b
          intro f2 hf2
          injection hf2 with h3
          subst h3
          refine ⟨q, ?_⟩
          have hamt : assocGetD (normFields fields) "Amount" (PyVal.num 0) =
              assocGetD fields "Amount" (PyVal.num 0) := by
            unfold assocGetD
            rw [normFields_amount]
          rw [hamt]
          exact hq
        obtain ⟨summ, hsumm⟩ := foldE_ok _ _ hfold []
        exact ⟨⟨summ, none⟩, by simp [hR, hl2, hsumm]⟩

theorem claim_C2_no_unhandled_exception_witness :
    ∃ resp, sales_report cfgFull netItems "2026-01-01" "2026-01-02" "day" =
      .ok resp :=
  claim_C2_no_unhandled_exception cfgFull netItems "2026-01-01" "2026-01-02" "day"
    (by
      intro row hrow
      rw [show (query_ido cfgFull netItems "SLPostedInvoices"
          (some REPORT_PROPERTIES)
          (some (reportFilterExpr "2026-01-01" "2026-01-02")) none 0).1 =
          [PyVal.dict [("CustNum", PyVal.str "C1")]] from by
            with_unfolding_all rfl] at hrow
      simp only [List.mem_singleton] at hrow
      subst hrow
      exact ⟨[("CustNum", PyVal.str "C1")], rfl, 0, by with_unfolding_all rfl⟩)

end SyteLine
